import Mathlib

/-!
Verification of the scan orchestration engine of
`dragoneye/cloud_scanner/azure/azure_scanner.py`.

The Python code is shallowly embedded: dictionaries parsed from JSON become
an inductive `Json` type, the scan-command dictionaries become the structure
`ScanCommand` (the `Parameters` key may be absent, hence `Option`), string
manipulation (`str.split`, `str.replace`, `in`) is re-implemented over
`List Char` with Python semantics, the HTTP layer and the dynamic-value
lookup of `misc_utils.get_dynamic_values_from_files` (whose source is not
part of this repository snapshot) are oracles passed as function arguments,
and Python exceptions become `Except String`.  The mutable `summary` queue
and the file system become explicit values threaded through the functions.
-/

namespace Dragoneye

/-! ## Python string primitives

Python `str.split(sep)` (non-empty `sep`), `str.replace(old, new)` and the
`sub in s` containment test, re-implemented over `List Char` by structural
recursion on a fuel argument so that the kernel can evaluate them. -/

/-- Helper: if `pat` is a prefix of `l`, return the rest of `l` after it. -/
def chopPre : List Char → List Char → Option (List Char)
  | [], l => some l
  | _ :: _, [] => none
  | p :: ps, c :: cs => if c = p then chopPre ps cs else none

/-- Fuel-driven worker for `pySplit`. -/
def splitOnFuel (sep : List Char) : Nat → List Char → List (List Char)
  | 0, l => [l]
  | _ + 1, [] => [[]]
  | fuel + 1, c :: cs =>
    match chopPre sep (c :: cs) with
    | some rest => [] :: splitOnFuel sep fuel rest
    | none =>
      match splitOnFuel sep fuel cs with
      | [] => [[c]]
      | g :: gs => (c :: g) :: gs

/-- Python `s.split(sep)` for a non-empty separator: split at every
non-overlapping, leftmost occurrence of `sep`. -/
def pySplit (s sep : String) : List String :=
  (splitOnFuel sep.data (s.data.length + 1) s.data).map String.mk

/-- Fuel-driven worker for `pyReplace`. -/
def replaceFuel (pat rep : List Char) : Nat → List Char → List Char
  | 0, l => l
  | _ + 1, [] => []
  | fuel + 1, c :: cs =>
    match chopPre pat (c :: cs) with
    | some rest => rep ++ replaceFuel pat rep fuel rest
    | none => c :: replaceFuel pat rep fuel cs

/-- Python `s.replace(pat, rep)`: replace every non-overlapping, leftmost
occurrence of `pat`. -/
def pyReplace (s pat rep : String) : String :=
  String.mk (replaceFuel pat.data rep.data (s.data.length + 1) s.data)

/-- Python `sub in s` (substring containment, for non-empty `sub`). -/
def pyContains (s sub : String) : Bool :=
  (splitOnFuel sub.data (s.data.length + 1) s.data).length != 1

/-! ## JSON values -/

/-- Parsed JSON data, the result of Python `json.loads`.  Objects keep their
fields in insertion order, as Python dictionaries do; keys are unique. -/
inductive Json where
  | null : Json
  | bool : Bool → Json
  | num : Int → Json
  | str : String → Json
  | arr : List Json → Json
  | obj : List (String × Json) → Json

/-- Python `d[key]` / `key in d` on a dictionary: first binding of `key`. -/
def lookupField : List (String × Json) → String → Option Json
  | [], _ => none
  | (k, v) :: rest, key => if k = key then some v else lookupField rest key

/-- Python `d[key] = v` on a dictionary: overwrite in place if the key is
present (keeping its position), otherwise append the new binding. -/
def setField : List (String × Json) → String → Json → List (String × Json)
  | [], key, v => [(key, v)]
  | (k, w) :: rest, key, v =>
    if k = key then (k, v) :: rest else (k, w) :: setField rest key v

/-! ## Scan commands -/

/-- One entry of a scan command's `Parameters` list: `Name` is a
space-separated list of placeholder names, `Value` the dynamic-value
reference resolved by `get_dynamic_values_from_files`. -/
structure ParamSpec where
  Name : String
  Value : String
deriving Repr, DecidableEq

/-- One scan command loaded from the commands YAML file.  The `Parameters`
key may be absent (`none`) or present, possibly with an empty list
(`some []`); `AzureScanner.scan` distinguishes the two via
`"Parameters" in command`. -/
structure ScanCommand where
  Name : String
  Request : String
  Parameters : Option (List ParamSpec)
deriving Repr, DecidableEq

/-- The partition loop of `AzureScanner.scan` (lines 39-45): a command goes
to `dependable_commands` when the `Parameters` key is present in the
command dictionary and to `non_dependable_commands` otherwise, both lists
keeping the input order.  Returns `(dependable, nonDependable)`. -/
def partitionCommands (scanCommands : List ScanCommand) : List ScanCommand × List ScanCommand :=
  scanCommands.foldl
    (fun acc command =>
      if command.Parameters.isSome then (acc.1 ++ [command], acc.2)
      else (acc.1, acc.2 ++ [command]))
    ([], [])

/-- Classification claimed by the spec sentence behind C1: dependent iff the
`parameters` list is non-empty (so a present-but-empty list counts as
independent). -/
def dependentPerClaim (c : ScanCommand) : Bool :=
  !(c.Parameters.getD []).isEmpty

/-- Classification actually implemented: dependent iff the `Parameters` key
is present, empty list or not. -/
def dependentPerCode (c : ScanCommand) : Bool :=
  c.Parameters.isSome

/-! ## URL building (`AzureScanner._build_urls`) -/

/-- Inner loop of `_build_urls`: substitute, for each `(param, value)` pair
of `zip(param_names.split(' '), param_real_value.split(' '))`, every
occurrence of `{param}` in the URL by `value`. -/
def substituteParams (url paramNames paramRealValue : String) : String :=
  ((pySplit paramNames " ").zip (pySplit paramRealValue " ")).foldl
    (fun modifiedUrl pv => pyReplace modifiedUrl ("\x7b" ++ pv.1 ++ "\x7d") pv.2) url

/-- Warning emitted by `_build_urls` when a parameter spec yields no
values. -/
def noValuesWarning (url : String) : String :=
  "Could not fill parameter values for " ++ url

/-- Loop body of the `for parameter in parameters` loop of `_build_urls`:
append one substituted URL per value the spec yields, and append the
warning when it yields none. -/
def buildUrlsParamStep (url : String) (dyn : String → List String)
    (acc : List String × List String) (parameter : ParamSpec) : List String × List String :=
  let paramRealValues := dyn parameter.Value
  (acc.1 ++ paramRealValues.map (substituteParams url parameter.Name),
   acc.2 ++ if paramRealValues.isEmpty then [noValuesWarning url] else [])

/-- First stage of `_build_urls` (building `urls_with_params`), together
with the warnings logged for parameter specs that yield no values.  The
oracle `dyn` stands for `get_dynamic_values_from_files`, whose source is
not part of this repository snapshot. -/
def buildUrlsWithParams (url : String) (parameters : List ParamSpec)
    (dyn : String → List String) : List String × List String :=
  if parameters.isEmpty then ([url], [])
  else parameters.foldl (buildUrlsParamStep url dyn) ([], [])

/-- The containment test `'/{resourceGroupName}/' in _url` of
`_build_urls`. -/
def hasResourceGroupPlaceholder (url : String) : Bool :=
  pyContains url "/\x7bresourceGroupName\x7d/"

/-- Loop body of the `for _url in urls_with_params` loop of `_build_urls`. -/
def expandResourceGroupStep (resourceGroups : List String)
    (completeUrls : List String) (u : String) : List String :=
  if hasResourceGroupPlaceholder u then
    completeUrls ++ resourceGroups.map (pyReplace u "\x7bresourceGroupName\x7d")
  else completeUrls ++ [u]

/-- Second stage of `_build_urls` (building `complete_urls`): each URL that
contains the resource-group placeholder is expanded once per resource
group, the others pass through unchanged. -/
def expandResourceGroups (urlsWithParams resourceGroups : List String) : List String :=
  urlsWithParams.foldl (expandResourceGroupStep resourceGroups) []

/-- `AzureScanner._build_urls`, returning the complete URL list and the
warnings logged along the way. -/
def buildUrls (url : String) (parameters : List ParamSpec)
    (dyn : String → List String) (resourceGroups : List String) : List String × List String :=
  let stage1 := buildUrlsWithParams url parameters dyn
  (expandResourceGroups stage1.1 resourceGroups, stage1.2)

/-! ## Result accumulation (`AzureScanner._concat_results`) -/

/-- The accumulator dictionary of `_get_results`: it starts as
`{'value': []}` and receives a `urls` key just before being returned. -/
structure ScanResults where
  value : List Json
  urls : List String

/-- Python `s in l` for a string `s` and a list of JSON values: `==` against
each element, which is `False` for any non-string element. -/
def strMember (s : String) : List Json → Bool
  | [] => false
  | Json.str t :: rest => t == s || strMember s rest
  | _ :: rest => strMember s rest

/-- Python `key in body` for an arbitrary JSON value `body`: key lookup on a
dictionary, element membership on a list, substring test on a string, and a
`TypeError` on anything else. -/
def jsonContainsKey (body : Json) (key : String) : Except String Bool :=
  match body with
  | Json.obj fields => .ok (lookupField fields key).isSome
  | Json.arr elems => .ok (strMember key elems)
  | Json.str s => .ok (pyContains s key)
  | _ => .error "TypeError: argument is not iterable"

/-- Python `body[key]` for an arbitrary JSON value `body` and a string
subscript: field access on a dictionary, a `TypeError` on anything else
(string subscripts are invalid for lists and strings). -/
def getItem (body : Json) (key : String) : Except String Json :=
  match body with
  | Json.obj fields =>
    match lookupField fields key with
    | some v => .ok v
    | none => .error "KeyError"
  | _ => .error "TypeError: not subscriptable"

/-- Python `acc.extend(v)` for a JSON value `v`: appends the elements of a
list, the characters of a string, the keys of a dictionary, and raises a
`TypeError` on a non-iterable value. -/
def extendWith (acc : List Json) (v : Json) : Except String (List Json) :=
  match v with
  | Json.arr items => .ok (acc ++ items)
  | Json.str s => .ok (acc ++ s.data.map (fun c => Json.str (String.mk [c])))
  | Json.obj fields => .ok (acc ++ fields.map (fun kv => Json.str kv.1))
  | _ => .error "TypeError: value is not iterable"

/-- `AzureScanner._concat_results`: on a 200 response whose parsed body
contains a `value` key, extend the accumulator's `value` list with it;
otherwise append the whole body as one item.  `body` is the parsed response
body (`json.loads(response.text)`). -/
def concatResults (results : ScanResults) (statusCode : Nat) (body : Json) :
    Except String ScanResults :=
  if statusCode = 200 then
    match jsonContainsKey body "value" with
    | .error e => .error e
    | .ok true =>
      match getItem body "value" with
      | .error e => .error e
      | .ok v =>
        match extendWith results.value v with
        | .error e => .error e
        | .ok newValue => .ok { results with value := newValue }
    | .ok false => .ok { results with value := results.value ++ [body] }
  else .ok results

/-! ## Resource-group tagging (`AzureScanner._add_resource_group`) -/

/-- The expression `item_id.split('resourceGroups/')[1].split('/')[0]` of
`_add_resource_group`: `none` when the indexing raises an `IndexError`
(marker absent), which the code catches and ignores. -/
def extractResourceGroup (itemId : String) : Option String :=
  match pySplit itemId "resourceGroups/" with
  | _ :: second :: _ => some ((pySplit second "/").headD "")
  | _ => none

/-- Per-item body of the `_add_resource_group` loop.  On a dictionary item,
the `try`/`except` swallows every failure of the extraction (marker absent,
or `id` not a string), so the item is returned unchanged; a non-dictionary
item makes `'id' in item` or `item['id']` raise outside the `try`. -/
def tagItem : Json → Except String Json
  | Json.obj fields =>
    match lookupField fields "id" with
    | some (Json.str itemId) =>
      match extractResourceGroup itemId with
      | some rg => .ok (Json.obj (setField fields "resourceGroup" (Json.str rg)))
      | none => .ok (Json.obj fields)
    | some _ => .ok (Json.obj fields)
    | none => .ok (Json.obj fields)
  | Json.str s =>
    if pyContains s "id" then .error "TypeError: string indices must be integers"
    else .ok (Json.str s)
  | Json.arr elems =>
    if strMember "id" elems then .error "TypeError: list indices must be integers"
    else .ok (Json.arr elems)
  | _ => .error "TypeError: argument is not iterable"

/-- The `for item in results['value']` loop of `_add_resource_group`. -/
def tagItems : List Json → Except String (List Json)
  | [] => .ok []
  | item :: rest =>
    match tagItem item with
    | .error e => .error e
    | .ok tagged =>
      match tagItems rest with
      | .error e => .error e
      | .ok taggedRest => .ok (tagged :: taggedRest)

/-- `AzureScanner._add_resource_group` over the accumulated results. -/
def addResourceGroup (results : ScanResults) : Except String ScanResults :=
  match tagItems results.value with
  | .error e => .error e
  | .ok newValue => .ok { results with value := newValue }

/-! ## Request execution (`AzureScanner._get_results`) -/

/-- An HTTP response as the scanner sees it after `invoke_get_request` (from
`misc_utils`, not part of this repository snapshot) has exhausted its
retries: a final status code and the parsed JSON body. -/
structure HttpResponse where
  statusCode : Nat
  body : Json

/-- One entry of the `summary` queue: the dictionary
`{'request': url}`, which gains an `error` key when the response is not a
200. -/
structure CallSummary where
  request : String
  error : Option Json

/-- Joint outcome of the `for url in urls` loop of `_get_results`: the
result value or the uncaught exception, the call summaries appended to the
`summary` queue (which outlive an exception), and the URLs that were
actually invoked before the loop ended or died. -/
structure UrlLoopOutcome where
  result : Except String ScanResults
  summaries : List CallSummary
  invoked : List String

/-- The `for url in urls` loop of `_get_results`.  Each URL is invoked via
the network oracle `net`; a 200 response is merged by `_concat_results`, a
non-200 response stores `json.loads(response.content)['error']` in the call
summary; either way the summary is appended afterwards.  An exception in
either branch escapes before the summary for that URL is appended and stops
the loop. -/
def runUrls (net : String → HttpResponse) : List String → ScanResults → UrlLoopOutcome
  | [], results => ⟨.ok results, [], []⟩
  | url :: rest, results =>
    let response := net url
    if response.statusCode = 200 then
      match concatResults results response.statusCode response.body with
      | .ok newResults =>
        let next := runUrls net rest newResults
        ⟨next.result, ⟨url, none⟩ :: next.summaries, url :: next.invoked⟩
      | .error e => ⟨.error e, [], [url]⟩
    else
      match getItem response.body "error" with
      | .ok err =>
        let next := runUrls net rest results
        ⟨next.result, ⟨url, some err⟩ :: next.summaries, url :: next.invoked⟩
      | .error e => ⟨.error e, [], [url]⟩

/-- Final step of `_get_results`: `results['urls'] = urls` on the loop's
result (a no-op when the loop died of an exception). -/
def getResultsAssemble (urls : List String) (outcome : UrlLoopOutcome) : UrlLoopOutcome :=
  ⟨outcome.result.map (fun r => { r with urls := urls }), outcome.summaries, outcome.invoked⟩

/-- `AzureScanner._get_results`: build the URLs, run them against the
network starting from the accumulator `{'value': []}`, then store the URL
list under the `urls` key of the result. -/
def getResults (baseUrl : String) (parameters : List ParamSpec)
    (dyn : String → List String) (resourceGroups : List String)
    (net : String → HttpResponse) : UrlLoopOutcome :=
  getResultsAssemble (buildUrls baseUrl parameters dyn resourceGroups).1
    (runUrls net (buildUrls baseUrl parameters dyn resourceGroups).1 (ScanResults.mk [] []))

/-! ## Result store and command execution
(`AzureScanner._save_result`, `_get_result_file_path`,
`_execute_scan_commands`) -/

/-- The account data directory as a map from file path to the stored,
tagged result object (`json.dump` output). -/
abbrev FileSystem := List (String × ScanResults)

/-- Lookup of a file by path (`os.path.isfile` plus reading). -/
def fsLookup : FileSystem → String → Option ScanResults
  | [], _ => none
  | (p, r) :: rest, path => if p = path then some r else fsLookup rest path

/-- Writing a file with `open(filepath, "w+")`: overwrite if present,
create otherwise. -/
def fsInsert : FileSystem → String → ScanResults → FileSystem
  | [], path, r => [(path, r)]
  | (p, r0) :: rest, path, r =>
    if p = path then (p, r) :: rest else (p, r0) :: fsInsert rest path r

/-- `AzureScanner._get_result_file_path`:
`os.path.join(account_data_dir, filename + '.json')`. -/
def getResultFilePath (accountDataDir filename : String) : String :=
  accountDataDir ++ "/" ++ filename ++ ".json"

/-- `AzureScanner._save_result`: tag the resource groups, then write the
result file. -/
def saveResult (results : ScanResults) (filepath : String) (fs : FileSystem) :
    Except String FileSystem :=
  match addResourceGroup results with
  | .error e => .error e
  | .ok tagged => .ok (fsInsert fs filepath tagged)

/-- Outcome of one `_execute_scan_commands` call: the file system after the
command, the call summaries appended, and the URLs invoked. -/
structure CommandOutcome where
  fs : FileSystem
  summaries : List CallSummary
  invoked : List String

/-- `AzureScanner._execute_scan_commands`: skip the command when its output
file already exists; otherwise substitute the subscription id into the
request template, run the URLs and save the result.  The surrounding
`try`/`except` turns any exception into a log line, so the function always
returns; an exception loses the file write but keeps the summaries already
appended. -/
def executeScanCommands (scanCommand : ScanCommand) (subscriptionId : String)
    (accountDataDir : String) (dyn : String → List String)
    (resourceGroups : List String) (net : String → HttpResponse)
    (fs : FileSystem) : CommandOutcome :=
  let outputFile := getResultFilePath accountDataDir scanCommand.Name
  if (fsLookup fs outputFile).isSome then
    ⟨fs, [], []⟩
  else
    let parameters := scanCommand.Parameters.getD []
    let baseUrl := pyReplace scanCommand.Request "\x7bsubscriptionId\x7d" subscriptionId
    let outcome := getResults baseUrl parameters dyn resourceGroups net
    match outcome.result with
    | .ok results =>
      match saveResult results outputFile fs with
      | .ok fs2 => ⟨fs2, outcome.summaries, outcome.invoked⟩
      | .error _ => ⟨fs, outcome.summaries, outcome.invoked⟩
    | .error _ => ⟨fs, outcome.summaries, outcome.invoked⟩

/-! ## Resource-group listing (`AzureScanner._get_resource_groups`) -/

/-- The fixed resource-group listing URL of `_get_resource_groups`. -/
def resourceGroupsUrl (subscriptionId : String) : String :=
  "https://management.azure.com/subscriptions/" ++ subscriptionId ++
    "/resourcegroups?api-version=2020-09-01"

/-- Outcome of `_get_resource_groups`: the resource-group names or the
uncaught exception, the file system afterwards, the summaries appended and
the URLs invoked. -/
structure ResourceGroupsOutcome where
  result : Except String (List String)
  fs : FileSystem
  summaries : List CallSummary
  invoked : List String

/-- Save-and-read-back step of `_get_resource_groups`, applied to the
outcome fields of its `_get_results` call: on success the listing is saved
under the reserved name `resource-groups` (no existence-based skip) and the
group names are read back through `get_dynamic_values_from_files` (the
oracle `dyn`); an exception propagates out of the method. -/
def getResourceGroupsSave (accountDataDir : String) (dyn : String → List String)
    (fs : FileSystem) (summaries : List CallSummary) (invoked : List String) :
    Except String ScanResults → ResourceGroupsOutcome
  | .error e => ⟨.error e, fs, summaries, invoked⟩
  | .ok results =>
    match saveResult results (getResultFilePath accountDataDir "resource-groups") fs with
    | .error e => ⟨.error e, fs, summaries, invoked⟩
    | .ok fs2 => ⟨.ok (dyn "resource-groups.json|.value[].name"), fs2, summaries, invoked⟩

/-- `AzureScanner._get_resource_groups`: fetch the listing with an empty
parameter list and no resource groups, then save and read back. -/
def getResourceGroups (subscriptionId accountDataDir : String)
    (dyn : String → List String) (net : String → HttpResponse)
    (fs : FileSystem) : ResourceGroupsOutcome :=
  getResourceGroupsSave accountDataDir dyn fs
    (getResults (resourceGroupsUrl subscriptionId) [] dyn [] net).summaries
    (getResults (resourceGroupsUrl subscriptionId) [] dyn [] net).invoked
    (getResults (resourceGroupsUrl subscriptionId) [] dyn [] net).result

/-! ## Run summary and full scan (`AzureScanner._print_summary`,
`AzureScanner.scan`) -/

/-- The `for call_summary in failures` loop of `_print_summary`, producing
one `(request, code, message)` line per failure; the subscripts
`call_summary['error']['code']` and `['message']` can raise, and such an
exception escapes `scan`. -/
def failureLines : List CallSummary → Except String (List (String × Json × Json))
  | [] => .ok []
  | cs :: rest =>
    match cs.error with
    | none => failureLines rest
    | some err =>
      match getItem err "code" with
      | .error e => .error e
      | .ok code =>
        match getItem err "message" with
        | .error e => .error e
        | .ok msg =>
          match failureLines rest with
          | .error e => .error e
          | .ok lines => .ok ((cs.request, code, msg) :: lines)

/-- `AzureScanner._print_summary`: the total number of calls, the number of
failures, and one detail line per failure. -/
def printSummary (summaries : List CallSummary) :
    Except String (Nat × Nat × List (String × Json × Json)) :=
  let failures := summaries.filter (fun cs => cs.error.isSome)
  match failureLines failures with
  | .error e => .error e
  | .ok lines => .ok (summaries.length, failures.length, lines)

/-- Sequential execution of a list of commands, threading the file system
and collecting the summaries.  Modelled from the spec:
`execute_parallel_functions_in_threads` of `dragoneye.utils.threading_utils`
is not part of this repository snapshot; per the spec both phases fully
drain and every per-command failure is caught inside
`_execute_scan_commands`, so the file system and summary contents reached
at the end do not depend on the in-phase interleaving for the properties
proved here. -/
def runCommandList (subscriptionId accountDataDir : String)
    (dyn : String → List String) (resourceGroups : List String)
    (net : String → HttpResponse) :
    List ScanCommand → FileSystem → FileSystem × List CallSummary
  | [], fs => (fs, [])
  | cmd :: rest, fs =>
    let out := executeScanCommands cmd subscriptionId accountDataDir dyn resourceGroups net fs
    let next := runCommandList subscriptionId accountDataDir dyn resourceGroups net rest out.fs
    (next.1, out.summaries ++ next.2)

/-- The scan settings consumed by `AzureScanner.scan`. -/
structure ScanSettings where
  subscriptionId : String
  accountName : String
  outputPath : String

/-- Final step of `scan`: after both phases drained, `_print_summary` runs
and the scan returns `os.path.join(account_data_dir, '..')` (the
`os.path.abspath` normalisation is not modelled; the returned string
denotes the account's parent output directory). -/
def scanReport (accountDataDir : String) (afterFs : FileSystem) :
    Except String (Nat × Nat × List (String × Json × Json)) →
    Except String (String × FileSystem × (Nat × Nat × List (String × Json × Json)))
  | .error e => .error e
  | .ok report => .ok (accountDataDir ++ "/..", afterFs, report)

/-- Body of `scan` after `_get_resource_groups` came back (its outcome
fields are passed in): partition the commands, run the independent phase
then the dependent phase, then report. -/
def scanRun (settings : ScanSettings) (scanCommands : List ScanCommand)
    (dyn : String → List String) (net : String → HttpResponse)
    (accountDataDir : String) (rgFs : FileSystem) (rgSummaries : List CallSummary) :
    Except String (List String) →
    Except String (String × FileSystem × (Nat × Nat × List (String × Json × Json)))
  | .error e => .error e
  | .ok resourceGroups =>
    scanReport accountDataDir
      (runCommandList settings.subscriptionId accountDataDir dyn resourceGroups net
        ((partitionCommands scanCommands).2 ++ (partitionCommands scanCommands).1) rgFs).1
      (printSummary (rgSummaries ++
        (runCommandList settings.subscriptionId accountDataDir dyn resourceGroups net
          ((partitionCommands scanCommands).2 ++ (partitionCommands scanCommands).1) rgFs).2))

/-- `AzureScanner.scan`: fetch the resource groups, then run both phases
and report.  The account data directory is modelled from the spec
(`init_directory` is not part of this repository snapshot) as
`<outputPath>/<accountName>`. -/
def scan (settings : ScanSettings) (scanCommands : List ScanCommand)
    (dyn : String → List String) (net : String → HttpResponse)
    (fs : FileSystem) :
    Except String (String × FileSystem × (Nat × Nat × List (String × Json × Json))) :=
  scanRun settings scanCommands dyn net (settings.outputPath ++ "/" ++ settings.accountName)
    (getResourceGroups settings.subscriptionId
      (settings.outputPath ++ "/" ++ settings.accountName) dyn net fs).fs
    (getResourceGroups settings.subscriptionId
      (settings.outputPath ++ "/" ++ settings.accountName) dyn net fs).summaries
    (getResourceGroups settings.subscriptionId
      (settings.outputPath ++ "/" ++ settings.accountName) dyn net fs).result

/-! ## Phase scheduling (`AzureScanner.scan` with
`execute_parallel_functions_in_threads`) -/

/-- A scheduling event of one command task: the task starts executing or
reaches a terminal state (completed or caught-failed). -/
inductive TaskEvent where
  | started : String → TaskEvent
  | terminated : String → TaskEvent
deriving Repr, DecidableEq

/-- The command a scheduling event belongs to. -/
def TaskEvent.task : TaskEvent → String
  | started n => n
  | terminated n => n

/-- The two phases `scan` hands to the executor, as command names:
the non-dependable tasks are enqueued first, the dependable tasks second. -/
def scheduledPhases (scanCommands : List ScanCommand) : List (List String) :=
  [(partitionCommands scanCommands).2.map ScanCommand.Name,
   (partitionCommands scanCommands).1.map ScanCommand.Name]

/-- Modelled from the spec: `execute_parallel_functions_in_threads` of
`dragoneye.utils.threading_utils` is not part of this repository snapshot.
Per the spec it runs the queued phases strictly in order, each phase fully
draining (every task completed or caught-failed) before the next phase
starts, while the event interleaving inside one phase is arbitrary; the
in-phase interleaving is therefore a parameter `sched`, and the executor
concatenates the per-phase traces. -/
def executePhases (phases : List (List String))
    (sched : List String → List TaskEvent) : List TaskEvent :=
  (phases.map sched).flatten

theorem partitionCommands_go (cmds : List ScanCommand) :
    ∀ d i : List ScanCommand,
      cmds.foldl
        (fun acc command =>
          if command.Parameters.isSome then (acc.1 ++ [command], acc.2)
          else (acc.1, acc.2 ++ [command]))
        (d, i) =
      (d ++ cmds.filter dependentPerCode, i ++ cmds.filter (fun c => !dependentPerCode c)) := by
  induction cmds with
  | nil => intro d i; simp
  | cons c rest ih =>
    intro d i
    by_cases h : c.Parameters.isSome
    · simp [List.filter, dependentPerCode, h, List.foldl, ih]
    · simp [List.filter, dependentPerCode, h, List.foldl, ih]

theorem buildUrlsWithParams_go (url : String) (dyn : String → List String)
    (parameters : List ParamSpec) :
    ∀ acc : List String × List String,
      parameters.foldl (buildUrlsParamStep url dyn) acc =
      (acc.1 ++ parameters.flatMap (fun p => (dyn p.Value).map (substituteParams url p.Name)),
       acc.2 ++ (parameters.filter (fun p => (dyn p.Value).isEmpty)).map
         (fun _ => noValuesWarning url)) := by
  induction parameters with
  | nil => intro acc; simp
  | cons p rest ih =>
    intro acc
    rw [List.foldl_cons, ih]
    by_cases h : (dyn p.Value).isEmpty <;>
      simp [buildUrlsParamStep, h, List.filter_cons, List.flatMap_cons, List.append_assoc]

theorem expandResourceGroups_go (resourceGroups : List String) (urls : List String) :
    ∀ acc : List String,
      urls.foldl (expandResourceGroupStep resourceGroups) acc =
      acc ++ urls.flatMap (fun u =>
        if hasResourceGroupPlaceholder u then
          resourceGroups.map (pyReplace u "\x7bresourceGroupName\x7d")
        else [u]) := by
  induction urls with
  | nil => intro acc; simp
  | cons u rest ih =>
    intro acc
    rw [List.foldl_cons, ih]
    by_cases h : hasResourceGroupPlaceholder u <;>
      simp [expandResourceGroupStep, h, List.flatMap_cons, List.append_assoc]

end Dragoneye

namespace Dragoneye

/-- C1 (amended): the scheduler partitions the command list into the
dependent and independent groups, preserving original relative order within
each group, and a command is placed in the dependent group if and only if
its `Parameters` key is present — even when the present list is empty. -/
theorem partition_by_key_presence (cmds : List ScanCommand) :
    partitionCommands cmds =
      (cmds.filter dependentPerCode, cmds.filter (fun c => !dependentPerCode c)) := by
  simpa using partitionCommands_go cmds [] []

/-- C1 (counterexample): a command whose `Parameters` list is present but
empty is claimed independent, yet `partitionCommands` places it in the
dependent group. -/
theorem partition_empty_parameters_counterexample :
    partitionCommands [ScanCommand.mk "c" "u" (some [])] ≠
      (List.filter dependentPerClaim [ScanCommand.mk "c" "u" (some [])],
       List.filter (fun c => !dependentPerClaim c) [ScanCommand.mk "c" "u" (some [])]) := by
  decide

/-- C3: for a command with an empty parameter-spec list, `_build_urls`
returns exactly the template itself when the template has no resource-group
placeholder, and exactly one URL per known resource group, with the
placeholder substituted, when it has one. -/
theorem build_urls_no_parameters (url : String) (dyn : String → List String)
    (resourceGroups : List String) :
    (buildUrls url [] dyn resourceGroups).1 =
      if hasResourceGroupPlaceholder url then
        resourceGroups.map (pyReplace url "\x7bresourceGroupName\x7d")
      else [url] := by
  by_cases h : hasResourceGroupPlaceholder url <;>
    simp [buildUrls, buildUrlsWithParams, expandResourceGroups, expandResourceGroupStep, h]

/-- C7: for a non-empty parameter-spec list, the first stage of
`_build_urls` contributes, for each spec in order, exactly one candidate URL
per value tuple the spec's value source yields (each named placeholder
substituted positionally), and for each spec that yields zero tuples it
contributes no URL and logs one warning; no error is raised. -/
theorem build_urls_per_spec (url : String) (parameters : List ParamSpec)
    (dyn : String → List String) (h : parameters ≠ []) :
    buildUrlsWithParams url parameters dyn =
      (parameters.flatMap (fun p => (dyn p.Value).map (substituteParams url p.Name)),
       (parameters.filter (fun p => (dyn p.Value).isEmpty)).map (fun _ => noValuesWarning url)) := by
  have hne : ¬parameters.isEmpty := by
    cases parameters with
    | nil => exact absurd rfl h
    | cons p rest => simp
  rw [buildUrlsWithParams, if_neg hne]
  simpa using buildUrlsWithParams_go url dyn parameters (([], []) : List String × List String)

/-- Witness for C7 at a concrete input: one spec yielding two value tuples
gives two URLs and no warning; with a second spec yielding zero tuples, one
warning is logged and no URL is contributed for it. -/
theorem build_urls_per_spec_witness :
    buildUrlsWithParams "https://h/\x7ba\x7d" [ParamSpec.mk "a" "s1", ParamSpec.mk "a" "s2"]
        (fun v => if v = "s1" then ["x", "y"] else []) =
      ([ParamSpec.mk "a" "s1", ParamSpec.mk "a" "s2"].flatMap
         (fun p => ((fun v => if v = "s1" then ["x", "y"] else []) p.Value).map
           (substituteParams "https://h/\x7ba\x7d" p.Name)),
       ([ParamSpec.mk "a" "s1", ParamSpec.mk "a" "s2"].filter
          (fun p => ((fun v => if v = "s1" then ["x", "y"] else []) p.Value).isEmpty)).map
         (fun _ => noValuesWarning "https://h/\x7ba\x7d")) :=
  build_urls_per_spec "https://h/\x7ba\x7d" [ParamSpec.mk "a" "s1", ParamSpec.mk "a" "s2"]
    (fun v => if v = "s1" then ["x", "y"] else []) (by decide)

/-- C5: merging a 2xx response body into the accumulator is order-preserving
and append-only: a body whose `value` key holds an array has its items
appended in order to the accumulator's `value` sequence, and a body without
a `value` key is appended as one item; no deduplication takes place. -/
theorem concat_results_append (acc : ScanResults) (fields : List (String × Json))
    (items : List Json) :
    (lookupField fields "value" = some (Json.arr items) →
      concatResults acc 200 (Json.obj fields) =
        .ok { acc with value := acc.value ++ items }) ∧
    (lookupField fields "value" = none →
      concatResults acc 200 (Json.obj fields) =
        .ok { acc with value := acc.value ++ [Json.obj fields] }) := by
  constructor
  · intro h
    simp [concatResults, jsonContainsKey, h, getItem, extendWith]
  · intro h
    simp [concatResults, jsonContainsKey, h]

/-- Witness for C5 at the spec's own example: merging `{value: [a, b]}` then
`{value: [c]}` yields `{value: [a, b, c]}`, and merging `{x: 1}` into an
accumulator holding `[y]` yields `{value: [y, {x: 1}]}`. -/
theorem concat_results_append_witness :
    concatResults (ScanResults.mk [Json.str "a", Json.str "b"] []) 200
        (Json.obj [("value", Json.arr [Json.str "c"])]) =
      .ok (ScanResults.mk [Json.str "a", Json.str "b", Json.str "c"] []) ∧
    concatResults (ScanResults.mk [Json.str "y"] []) 200 (Json.obj [("x", Json.num 1)]) =
      .ok (ScanResults.mk [Json.str "y", Json.obj [("x", Json.num 1)]] []) :=
  ⟨(concat_results_append (ScanResults.mk [Json.str "a", Json.str "b"] [])
      [("value", Json.arr [Json.str "c"])] [Json.str "c"]).1 rfl,
   (concat_results_append (ScanResults.mk [Json.str "y"] [])
      [("x", Json.num 1)] []).2 rfl⟩

theorem tagItem_obj_ok (fields : List (String × Json)) :
    ∃ f2, tagItem (Json.obj fields) = .ok (Json.obj f2) := by
  cases h : lookupField fields "id" with
  | none => exact ⟨fields, by simp [tagItem, h]⟩
  | some v =>
    cases v with
    | str itemId =>
      cases h2 : extractResourceGroup itemId with
      | none => exact ⟨fields, by simp [tagItem, h, h2]⟩
      | some rg =>
        exact ⟨setField fields "resourceGroup" (Json.str rg), by simp [tagItem, h, h2]⟩
    | null => exact ⟨fields, by simp [tagItem, h]⟩
    | bool b => exact ⟨fields, by simp [tagItem, h]⟩
    | num n => exact ⟨fields, by simp [tagItem, h]⟩
    | arr l => exact ⟨fields, by simp [tagItem, h]⟩
    | obj o => exact ⟨fields, by simp [tagItem, h]⟩

theorem tagItems_all_obj_ok (l : List Json) :
    (∀ item ∈ l, ∃ fs, item = Json.obj fs) → ∃ nv, tagItems l = .ok nv := by
  induction l with
  | nil => intro _; exact ⟨[], rfl⟩
  | cons item rest ih =>
    intro hall
    obtain ⟨fs, hfs⟩ := hall item (List.mem_cons_self item rest)
    obtain ⟨f2, hf2⟩ := tagItem_obj_ok fs
    obtain ⟨nv, hnv⟩ := ih (fun x hx => hall x (List.mem_cons_of_mem item hx))
    exact ⟨Json.obj f2 :: nv, by simp [tagItems, hfs, hf2, hnv]⟩

/-- C6: the tagger sets an item's `resourceGroup` field to the segment of
its `id` that follows the `resourceGroups/` marker up to the next slash
when that segment exists, leaving every other field as it was; items whose
`id` has no parseable resource-group segment and items without an `id` are
left completely unmodified, and on a `value` sequence of dictionary items
no error is ever raised. -/
theorem add_resource_group_spec :
    (∀ (fields : List (String × Json)) (itemId : String) (rg : String),
      lookupField fields "id" = some (Json.str itemId) →
      extractResourceGroup itemId = some rg →
      tagItem (Json.obj fields) = .ok (Json.obj (setField fields "resourceGroup" (Json.str rg)))) ∧
    (∀ (fields : List (String × Json)) (itemId : String),
      lookupField fields "id" = some (Json.str itemId) →
      extractResourceGroup itemId = none →
      tagItem (Json.obj fields) = .ok (Json.obj fields)) ∧
    (∀ fields : List (String × Json),
      lookupField fields "id" = none →
      tagItem (Json.obj fields) = .ok (Json.obj fields)) ∧
    (∀ results : ScanResults,
      (∀ item ∈ results.value, ∃ fs, item = Json.obj fs) →
      ∃ newValue, addResourceGroup results = .ok { results with value := newValue }) := by
  refine ⟨?_, ?_, ?_, ?_⟩
  · intro fields itemId rg h h2
    simp [tagItem, h, h2]
  · intro fields itemId h h2
    simp [tagItem, h, h2]
  · intro fields h
    simp [tagItem, h]
  · intro results hall
    obtain ⟨nv, hnv⟩ := tagItems_all_obj_ok results.value hall
    exact ⟨nv, by simp [addResourceGroup, hnv]⟩

/-- Witness for C6 at the spec's own example: an item with
`id = "/subscriptions/s/resourceGroups/rg1/providers/x"` is tagged
`resourceGroup = "rg1"` with its other fields intact, and an item without a
`resourceGroups/` segment is left untagged with no error raised. -/
theorem add_resource_group_spec_witness :
    tagItem (Json.obj [("id", Json.str "/subscriptions/s/resourceGroups/rg1/providers/x")]) =
      .ok (Json.obj [("id", Json.str "/subscriptions/s/resourceGroups/rg1/providers/x"),
                     ("resourceGroup", Json.str "rg1")]) ∧
    tagItem (Json.obj [("id", Json.str "/subscriptions/s/providers/x")]) =
      .ok (Json.obj [("id", Json.str "/subscriptions/s/providers/x")]) :=
  ⟨add_resource_group_spec.1 [("id", Json.str "/subscriptions/s/resourceGroups/rg1/providers/x")]
      "/subscriptions/s/resourceGroups/rg1/providers/x" "rg1" rfl (by decide),
   add_resource_group_spec.2.1 [("id", Json.str "/subscriptions/s/providers/x")]
      "/subscriptions/s/providers/x" rfl (by decide)⟩

/-- C4: a command whose output file already exists is skipped entirely: the
file system is returned unchanged (in particular the existing file's
content), no URL of the command is invoked, and no outcome is appended to
the run summary. -/
theorem execute_skips_existing (scanCommand : ScanCommand)
    (subscriptionId accountDataDir : String) (dyn : String → List String)
    (resourceGroups : List String) (net : String → HttpResponse) (fs : FileSystem)
    (h : (fsLookup fs (getResultFilePath accountDataDir scanCommand.Name)).isSome) :
    executeScanCommands scanCommand subscriptionId accountDataDir dyn resourceGroups net fs =
      ⟨fs, [], []⟩ := by
  simp [executeScanCommands, h]

/-- Witness for C4 at a concrete input: with `out/acct/c.json` already on
disk, command `c` leaves the file system untouched, invokes nothing and
appends nothing. -/
theorem execute_skips_existing_witness :
    executeScanCommands (ScanCommand.mk "c" "u" none) "s" "out/acct" (fun _ => []) []
        (fun _ => HttpResponse.mk 200 (Json.obj []))
        [("out/acct/c.json", ScanResults.mk [] [])] =
      ⟨[("out/acct/c.json", ScanResults.mk [] [])], [], []⟩ :=
  execute_skips_existing (ScanCommand.mk "c" "u" none) "s" "out/acct" (fun _ => []) []
    (fun _ => HttpResponse.mk 200 (Json.obj []))
    [("out/acct/c.json", ScanResults.mk [] [])] (by decide)

theorem concatResults_ok_transfer (s : Nat) (body : Json) (a b r : ScanResults)
    (h : concatResults a s body = .ok r) : ∃ r2, concatResults b s body = .ok r2 := by
  unfold concatResults at h ⊢
  by_cases hs : s = 200
  · rw [if_pos hs] at h ⊢
    cases hck : jsonContainsKey body "value" with
    | error e => rw [hck] at h; simp at h
    | ok tf =>
      rw [hck] at h
      cases tf with
      | false => exact ⟨_, rfl⟩
      | true =>
        cases hgi : getItem body "value" with
        | error e => rw [hgi] at h; simp at h
        | ok v =>
          rw [hgi] at h
          cases v with
          | arr items => exact ⟨_, rfl⟩
          | str s2 => exact ⟨_, rfl⟩
          | obj fields => exact ⟨_, rfl⟩
          | null => simp [extendWith] at h
          | bool b2 => simp [extendWith] at h
          | num n => simp [extendWith] at h
  · rw [if_neg hs]
    exact ⟨_, rfl⟩

theorem runUrls_spec (net : String → HttpResponse) (urls : List String)
    (h1 : ∀ u ∈ urls, (net u).statusCode = 200 →
      (concatResults (ScanResults.mk [] []) 200 (net u).body).isOk = true)
    (h2 : ∀ u ∈ urls, ¬(net u).statusCode = 200 →
      (getItem (net u).body "error").isOk = true) :
    ∀ acc : ScanResults,
      (runUrls net urls acc).result.isOk = true ∧
      (runUrls net urls acc).invoked = urls ∧
      (runUrls net urls acc).summaries =
        urls.map (fun u => CallSummary.mk u
          (if (net u).statusCode = 200 then none
           else (getItem (net u).body "error").toOption)) := by
  induction urls with
  | nil => intro acc; exact ⟨rfl, rfl, rfl⟩
  | cons url rest ih =>
    intro acc
    have h1r : ∀ u ∈ rest, (net u).statusCode = 200 →
        (concatResults (ScanResults.mk [] []) 200 (net u).body).isOk = true :=
      fun u hu => h1 u (List.mem_cons_of_mem _ hu)
    have h2r : ∀ u ∈ rest, ¬(net u).statusCode = 200 →
        (getItem (net u).body "error").isOk = true :=
      fun u hu => h2 u (List.mem_cons_of_mem _ hu)
    by_cases hs : (net url).statusCode = 200
    · have hok := h1 url (List.mem_cons_self _ _) hs
      obtain ⟨r0, hr0⟩ : ∃ r0, concatResults (ScanResults.mk [] []) 200 (net url).body = .ok r0 := by
        cases hc : concatResults (ScanResults.mk [] []) 200 (net url).body with
        | error e => rw [hc] at hok; exact Bool.noConfusion hok
        | ok r0 => exact ⟨r0, rfl⟩
      obtain ⟨r1, hr1⟩ := concatResults_ok_transfer 200 (net url).body
        (ScanResults.mk [] []) acc r0 hr0
      have hmain := ih h1r h2r r1
      simp only [runUrls, hs, if_true, hr1]
      exact ⟨hmain.1, by rw [hmain.2.1], by rw [hmain.2.2]; simp [hs]⟩
    · have hok := h2 url (List.mem_cons_self _ _) hs
      obtain ⟨err, herr⟩ : ∃ err, getItem (net url).body "error" = .ok err := by
        cases hg : getItem (net url).body "error" with
        | error e => rw [hg] at hok; exact Bool.noConfusion hok
        | ok err => exact ⟨err, rfl⟩
      have hmain := ih h1r h2r acc
      simp only [runUrls, hs, if_false, herr]
      exact ⟨hmain.1, by rw [hmain.2.1],
        by rw [hmain.2.2]; simp [hs, herr, Except.toOption]⟩

/-- C2 (amended): for every resolved URL of a command whose response is
either a 200 with a body the merger accepts, or a non-200 whose body carries
an `error` object, exactly one outcome is appended to the run summary, in
URL order: a bare success entry for a 200 and an entry carrying the parsed
upstream error object otherwise; no exception escapes, so the scan
continues.  (Success is status exactly 200 — see the counterexample for the
claim's "2xx".) -/
theorem get_results_one_outcome_per_url (baseUrl : String) (parameters : List ParamSpec)
    (dyn : String → List String) (resourceGroups : List String) (net : String → HttpResponse)
    (h1 : ∀ u ∈ (buildUrls baseUrl parameters dyn resourceGroups).1,
      (net u).statusCode = 200 →
      (concatResults (ScanResults.mk [] []) 200 (net u).body).isOk = true)
    (h2 : ∀ u ∈ (buildUrls baseUrl parameters dyn resourceGroups).1,
      ¬(net u).statusCode = 200 →
      (getItem (net u).body "error").isOk = true) :
    (getResults baseUrl parameters dyn resourceGroups net).result.isOk = true ∧
    (getResults baseUrl parameters dyn resourceGroups net).invoked =
      (buildUrls baseUrl parameters dyn resourceGroups).1 ∧
    (getResults baseUrl parameters dyn resourceGroups net).summaries =
      (buildUrls baseUrl parameters dyn resourceGroups).1.map
        (fun u => CallSummary.mk u
          (if (net u).statusCode = 200 then none
           else (getItem (net u).body "error").toOption)) := by
  have hrun := runUrls_spec net (buildUrls baseUrl parameters dyn resourceGroups).1 h1 h2
    (ScanResults.mk [] [])
  have hrun1 := hrun.1
  refine ⟨?_, hrun.2.1, hrun.2.2⟩
  have hres0 : (getResults baseUrl parameters dyn resourceGroups net).result =
      Except.map (fun r => { r with urls := (buildUrls baseUrl parameters dyn resourceGroups).1 })
        ((runUrls net (buildUrls baseUrl parameters dyn resourceGroups).1
          (ScanResults.mk [] [])).result) := rfl
  rw [hres0]
  cases hres : (runUrls net (buildUrls baseUrl parameters dyn resourceGroups).1
      (ScanResults.mk [] [])).result with
  | error e => rw [hres] at hrun1; simp [Except.isOk, Except.toBool] at hrun1
  | ok r => rfl

/-- Witness for C2 at a concrete input: one URL answered with a 404 whose
body carries an `error` object yields exactly one summary entry holding that
object, and the loop completes without an exception. -/
theorem get_results_one_outcome_per_url_witness :
    (getResults "https://h/a" [] (fun _ => []) []
        (fun _ => HttpResponse.mk 404
          (Json.obj [("error", Json.obj [("code", Json.str "NotFound"),
                                         ("message", Json.str "no")])]))).result.isOk = true ∧
    (getResults "https://h/a" [] (fun _ => []) []
        (fun _ => HttpResponse.mk 404
          (Json.obj [("error", Json.obj [("code", Json.str "NotFound"),
                                         ("message", Json.str "no")])]))).invoked =
      (buildUrls "https://h/a" [] (fun _ => []) []).1 ∧
    (getResults "https://h/a" [] (fun _ => []) []
        (fun _ => HttpResponse.mk 404
          (Json.obj [("error", Json.obj [("code", Json.str "NotFound"),
                                         ("message", Json.str "no")])]))).summaries =
      (buildUrls "https://h/a" [] (fun _ => []) []).1.map
        (fun u => CallSummary.mk u
          (if (HttpResponse.mk 404
              (Json.obj [("error", Json.obj [("code", Json.str "NotFound"),
                                             ("message", Json.str "no")])])).statusCode = 200
           then none
           else (getItem (HttpResponse.mk 404
              (Json.obj [("error", Json.obj [("code", Json.str "NotFound"),
                                             ("message", Json.str "no")])])).body
              "error").toOption)) :=
  get_results_one_outcome_per_url "https://h/a" [] (fun _ => []) []
    (fun _ => HttpResponse.mk 404
      (Json.obj [("error", Json.obj [("code", Json.str "NotFound"),
                                     ("message", Json.str "no")])]))
    (by decide) (by decide)

/-- C2 (counterexample): a 204 response is a 2xx success per the claim, yet
the code compares the status to 200 exactly, routes the 204 into the error
branch, and the missing `error` object raises before the summary is
appended: the one invoked URL yields zero summary entries. -/
theorem one_outcome_2xx_counterexample :
    (getResults "https://h/a" [] (fun _ => []) []
        (fun _ => HttpResponse.mk 204 (Json.obj []))).invoked = ["https://h/a"] ∧
    (getResults "https://h/a" [] (fun _ => []) []
        (fun _ => HttpResponse.mk 204 (Json.obj []))).summaries = [] := by
  exact ⟨rfl, rfl⟩

/-- C10: the synthetic resource-group listing performs its network fetch and
writes `resource-groups.json` on every run, even when that file already
exists from a prior run — `_get_resource_groups` contains no
existence-based skip (contrast with C4's skip, which only guards commands
from the command list). -/
theorem resource_groups_always_fetched (subscriptionId accountDataDir : String)
    (dyn : String → List String) (net : String → HttpResponse) (fs : FileSystem)
    (r0 tagged : ScanResults)
    (hexists : (fsLookup fs (getResultFilePath accountDataDir "resource-groups")).isSome)
    (hnp : hasResourceGroupPlaceholder (resourceGroupsUrl subscriptionId) = false)
    (hs200 : (net (resourceGroupsUrl subscriptionId)).statusCode = 200)
    (hconcat : concatResults (ScanResults.mk [] []) 200
        (net (resourceGroupsUrl subscriptionId)).body = .ok r0)
    (htag : addResourceGroup
        (ScanResults.mk r0.value [resourceGroupsUrl subscriptionId]) = .ok tagged) :
    getResourceGroups subscriptionId accountDataDir dyn net fs =
      ⟨.ok (dyn "resource-groups.json|.value[].name"),
       fsInsert fs (getResultFilePath accountDataDir "resource-groups") tagged,
       [CallSummary.mk (resourceGroupsUrl subscriptionId) none],
       [resourceGroupsUrl subscriptionId]⟩ := by
  have hurls : (buildUrls (resourceGroupsUrl subscriptionId) [] dyn []).1 =
      [resourceGroupsUrl subscriptionId] := by
    simp [buildUrls, buildUrlsWithParams, expandResourceGroups, expandResourceGroupStep, hnp]
  have hrun : runUrls net [resourceGroupsUrl subscriptionId] (ScanResults.mk [] []) =
      ⟨.ok r0, [CallSummary.mk (resourceGroupsUrl subscriptionId) none],
       [resourceGroupsUrl subscriptionId]⟩ := by
    simp only [runUrls, hs200, if_true, hconcat]
  have hget : getResults (resourceGroupsUrl subscriptionId) [] dyn [] net =
      ⟨.ok (ScanResults.mk r0.value [resourceGroupsUrl subscriptionId]),
       [CallSummary.mk (resourceGroupsUrl subscriptionId) none],
       [resourceGroupsUrl subscriptionId]⟩ := by
    unfold getResults
    rw [hurls, hrun]
    rfl
  unfold getResourceGroups
  rw [hget]
  simp only [getResourceGroupsSave, saveResult, htag]

/-- Witness for C10 at a concrete input: the file `d/resource-groups.json`
is already on disk, yet the listing URL is invoked and the file is written
again. -/
theorem resource_groups_always_fetched_witness :
    getResourceGroups "s" "d" (fun _ => ["rg1"])
        (fun _ => HttpResponse.mk 200 (Json.obj [("value", Json.arr [])]))
        [("d/resource-groups.json", ScanResults.mk [] [])] =
      ⟨.ok ((fun _ => ["rg1"]) "resource-groups.json|.value[].name"),
       fsInsert [("d/resource-groups.json", ScanResults.mk [] [])]
         (getResultFilePath "d" "resource-groups")
         (ScanResults.mk [] [resourceGroupsUrl "s"]),
       [CallSummary.mk (resourceGroupsUrl "s") none],
       [resourceGroupsUrl "s"]⟩ :=
  resource_groups_always_fetched "s" "d" (fun _ => ["rg1"])
    (fun _ => HttpResponse.mk 200 (Json.obj [("value", Json.arr [])]))
    [("d/resource-groups.json", ScanResults.mk [] [])]
    (ScanResults.mk [] []) (ScanResults.mk [] [resourceGroupsUrl "s"])
    (by decide) (by decide) rfl rfl rfl

/-- C9 (amended): a scan whose resource-group listing succeeds and whose
recorded failure outcomes (if any) carry error objects with `code` and
`message` entries always completes: per-command exceptions are caught at
the command boundary, the summary is produced, and the returned path is
`os.path.join(account_data_dir, '..')` — the account's parent output
directory — no matter how many commands failed. -/
theorem scan_returns_parent_dir (settings : ScanSettings)
    (scanCommands : List ScanCommand) (dyn : String → List String)
    (net : String → HttpResponse) (fs : FileSystem)
    (resourceGroups : List String)
    (hrg : (getResourceGroups settings.subscriptionId
        (settings.outputPath ++ "/" ++ settings.accountName) dyn net fs).result =
        .ok resourceGroups)
    (report : Nat × Nat × List (String × Json × Json))
    (hsum : printSummary
        ((getResourceGroups settings.subscriptionId
            (settings.outputPath ++ "/" ++ settings.accountName) dyn net fs).summaries ++
         (runCommandList settings.subscriptionId
            (settings.outputPath ++ "/" ++ settings.accountName) dyn resourceGroups net
            ((partitionCommands scanCommands).2 ++ (partitionCommands scanCommands).1)
            (getResourceGroups settings.subscriptionId
              (settings.outputPath ++ "/" ++ settings.accountName) dyn net fs).fs).2) =
        .ok report) :
    scan settings scanCommands dyn net fs =
      .ok (settings.outputPath ++ "/" ++ settings.accountName ++ "/..",
        (runCommandList settings.subscriptionId
          (settings.outputPath ++ "/" ++ settings.accountName) dyn resourceGroups net
          ((partitionCommands scanCommands).2 ++ (partitionCommands scanCommands).1)
          (getResourceGroups settings.subscriptionId
            (settings.outputPath ++ "/" ++ settings.accountName) dyn net fs).fs).1,
        report) := by
  unfold scan
  rw [hrg]
  simp only [scanRun]
  rw [hsum]
  simp only [scanReport]

/-- Witness for C9 at a concrete input: a scan over one command whose only
URL gets a 404 with a well-formed error object completes, reports the one
failure, and returns `out/acct/..`. -/
theorem scan_returns_parent_dir_witness :
    scan (ScanSettings.mk "s" "acct" "out") [ScanCommand.mk "A" "u1" none] (fun _ => [])
        (fun u => if u = "u1" then
            HttpResponse.mk 404
              (Json.obj [("error", Json.obj [("code", Json.str "NF"),
                                             ("message", Json.str "no")])])
          else HttpResponse.mk 200 (Json.obj [("value", Json.arr [])])) [] =
      .ok ("out" ++ "/" ++ "acct" ++ "/..",
        (runCommandList "s" ("out" ++ "/" ++ "acct") (fun _ => []) [] (fun u =>
            if u = "u1" then
              HttpResponse.mk 404
                (Json.obj [("error", Json.obj [("code", Json.str "NF"),
                                               ("message", Json.str "no")])])
            else HttpResponse.mk 200 (Json.obj [("value", Json.arr [])]))
          ((partitionCommands [ScanCommand.mk "A" "u1" none]).2 ++
           (partitionCommands [ScanCommand.mk "A" "u1" none]).1)
          (getResourceGroups "s" ("out" ++ "/" ++ "acct") (fun _ => []) (fun u =>
            if u = "u1" then
              HttpResponse.mk 404
                (Json.obj [("error", Json.obj [("code", Json.str "NF"),
                                               ("message", Json.str "no")])])
            else HttpResponse.mk 200 (Json.obj [("value", Json.arr [])])) []).fs).1,
        (2, 1, [("u1", Json.str "NF", Json.str "no")])) :=
  scan_returns_parent_dir (ScanSettings.mk "s" "acct" "out") [ScanCommand.mk "A" "u1" none]
    (fun _ => [])
    (fun u => if u = "u1" then
        HttpResponse.mk 404
          (Json.obj [("error", Json.obj [("code", Json.str "NF"),
                                         ("message", Json.str "no")])])
      else HttpResponse.mk 200 (Json.obj [("value", Json.arr [])])) [] [] rfl
    (2, 1, [("u1", Json.str "NF", Json.str "no")]) rfl

/-- C9 (counterexample): one command fails with an exception inside its
pipeline (a 200 response whose body is a bare number makes the merger
raise) and is caught, but a sibling command's recorded 404 outcome carries
a string instead of an error object, so `_print_summary`'s
`call_summary['error']['code']` raises after all commands ran: the scan
completes no summary and returns no path. -/
theorem scan_summary_crash_counterexample :
    (scan (ScanSettings.mk "s" "acct" "out")
        [ScanCommand.mk "A" "u1" none, ScanCommand.mk "B" "u2" none] (fun _ => [])
        (fun u => if u = "u1" then HttpResponse.mk 200 (Json.num 5)
          else if u = "u2" then HttpResponse.mk 404 (Json.obj [("error", Json.str "oops")])
          else HttpResponse.mk 200 (Json.obj [("value", Json.arr [])])) []).isOk = false := by
  rfl

theorem name_disjoint_of_nodup (scanCommands : List ScanCommand)
    (hnodup : (scanCommands.map ScanCommand.Name).Nodup) :
    ∀ x, x ∈ (partitionCommands scanCommands).2.map ScanCommand.Name →
      x ∈ (partitionCommands scanCommands).1.map ScanCommand.Name → False := by
  have hperm : List.Perm
      ((scanCommands.filter dependentPerCode ++
        scanCommands.filter (fun c => !dependentPerCode c)).map ScanCommand.Name)
      (scanCommands.map ScanCommand.Name) :=
    (List.filter_append_perm dependentPerCode scanCommands).map ScanCommand.Name
  have hnd : ((scanCommands.filter dependentPerCode).map ScanCommand.Name ++
      (scanCommands.filter (fun c => !dependentPerCode c)).map ScanCommand.Name).Nodup := by
    rw [← List.map_append]
    exact hperm.symm.nodup hnodup
  have hdisj := List.disjoint_of_nodup_append hnd
  intro x hx2 hx1
  rw [partition_by_key_presence] at hx2 hx1
  exact hdisj hx1 hx2

/-- C8: in the executor model the independent phase's trace precedes the
dependent phase's trace entirely: when command names are unique, every
independent command has a termination event in the trace, and any
termination event of an independent command is positioned strictly before
any start event of a dependent command. -/
theorem independent_terminates_before_dependent_starts
    (scanCommands : List ScanCommand) (sched : List String → List TaskEvent)
    (hnodup : (scanCommands.map ScanCommand.Name).Nodup)
    (hown1 : ∀ e ∈ sched ((partitionCommands scanCommands).2.map ScanCommand.Name),
      TaskEvent.task e ∈ (partitionCommands scanCommands).2.map ScanCommand.Name)
    (hown2 : ∀ e ∈ sched ((partitionCommands scanCommands).1.map ScanCommand.Name),
      TaskEvent.task e ∈ (partitionCommands scanCommands).1.map ScanCommand.Name)
    (hdrain : ∀ t ∈ (partitionCommands scanCommands).2.map ScanCommand.Name,
      TaskEvent.terminated t ∈ sched ((partitionCommands scanCommands).2.map ScanCommand.Name))
    (i d : String)
    (hi : i ∈ (partitionCommands scanCommands).2.map ScanCommand.Name)
    (hd : d ∈ (partitionCommands scanCommands).1.map ScanCommand.Name) :
    (∃ q, (executePhases (scheduledPhases scanCommands) sched).get? q =
      some (TaskEvent.terminated i)) ∧
    ∀ p q,
      (executePhases (scheduledPhases scanCommands) sched).get? p =
        some (TaskEvent.started d) →
      (executePhases (scheduledPhases scanCommands) sched).get? q =
        some (TaskEvent.terminated i) → q < p := by
  have hdisj := name_disjoint_of_nodup scanCommands hnodup
  have htrace : executePhases (scheduledPhases scanCommands) sched =
      sched ((partitionCommands scanCommands).2.map ScanCommand.Name) ++
      sched ((partitionCommands scanCommands).1.map ScanCommand.Name) := by
    simp [executePhases, scheduledPhases]
  constructor
  · have hmem : TaskEvent.terminated i ∈
        executePhases (scheduledPhases scanCommands) sched := by
      rw [htrace]
      exact List.mem_append_left _ (hdrain i hi)
    exact List.get?_of_mem hmem
  · intro p q hp hq
    rw [htrace] at hp hq
    have hqlt : q < (sched ((partitionCommands scanCommands).2.map ScanCommand.Name)).length := by
      by_contra hge
      push_neg at hge
      rw [List.get?_append_right hge] at hq
      have hmem := List.get?_mem hq
      have := hown2 _ hmem
      exact hdisj i hi this
    have hple : (sched ((partitionCommands scanCommands).2.map ScanCommand.Name)).length ≤ p := by
      by_contra hlt
      push_neg at hlt
      rw [List.get?_append hlt] at hp
      have hmem := List.get?_mem hp
      have := hown1 _ hmem
      exact hdisj d this hd
    exact Nat.lt_of_lt_of_le hqlt hple

/-- Witness for C8 at a concrete input: one independent command `I`, one
dependent command `D`, and a scheduler that starts and terminates each task
of a phase in order. -/
theorem independent_before_dependent_witness :
    (∃ q, (executePhases
        (scheduledPhases [ScanCommand.mk "I" "u" none,
          ScanCommand.mk "D" "v" (some [ParamSpec.mk "a" "b"])])
        (fun ph => ph.flatMap (fun t => [TaskEvent.started t, TaskEvent.terminated t]))).get? q =
      some (TaskEvent.terminated "I")) ∧
    ∀ p q,
      (executePhases
        (scheduledPhases [ScanCommand.mk "I" "u" none,
          ScanCommand.mk "D" "v" (some [ParamSpec.mk "a" "b"])])
        (fun ph => ph.flatMap (fun t => [TaskEvent.started t, TaskEvent.terminated t]))).get? p =
        some (TaskEvent.started "D") →
      (executePhases
        (scheduledPhases [ScanCommand.mk "I" "u" none,
          ScanCommand.mk "D" "v" (some [ParamSpec.mk "a" "b"])])
        (fun ph => ph.flatMap (fun t => [TaskEvent.started t, TaskEvent.terminated t]))).get? q =
        some (TaskEvent.terminated "I") → q < p :=
  independent_terminates_before_dependent_starts
    [ScanCommand.mk "I" "u" none, ScanCommand.mk "D" "v" (some [ParamSpec.mk "a" "b"])]
    (fun ph => ph.flatMap (fun t => [TaskEvent.started t, TaskEvent.terminated t]))
    (by decide) (by decide) (by decide) (by decide) "I" "D" (by decide) (by decide)

end Dragoneye
